import Mathlib

/-!
Verification development for the PyEFVLib transient finite-volume heat-conduction
solver (2-D triangle/quadrilateral meshes).

Shallow embedding over ℚ of:
  * the shape catalogue (src/GridReader/libs/geometry/Shape.py),
  * the inner-face global-derivative computations
    (src/PyEFVLib/geometry/InnerFace.py and
     src/libs/simulation/HeatTransfer2D.py, calculateInnerFacesGlobalDerivatives),
  * the local diffusive-flux matrix assembler (computeLocalMatrix),
  * the solver assembly, convergence check and main loop (HeatTransfer2D).

Floating-point numpy arithmetic is modelled exactly over ℚ.  The external
collaborators the spec places out of scope (the dense linear solve of
numpy, the Euclidean norm of the absent Point.py, console/file output and
the wall-clock part of the timer) enter as explicit function parameters or
are omitted where they only perform I/O.
-/

namespace PyEFVLib

/-- A geometric point with three rational coordinates
(GeometryPrimitives; Point is constructed with three coordinates). -/
structure Point where
  x : ℚ
  y : ℚ
  z : ℚ
deriving DecidableEq, Repr

/-- The coordinate list of a point, as returned by getCoordinates(). -/
def Point.getCoordinates (p : Point) : List ℚ := [p.x, p.y, p.z]

/-- Coordinatewise scalar multiple of a point. -/
def Point.smul (w : ℚ) (p : Point) : Point := ⟨w * p.x, w * p.y, w * p.z⟩

/-- Coordinatewise sum of two points. -/
def Point.add (p q : Point) : Point := ⟨p.x + q.x, p.y + q.y, p.z + q.z⟩

/-! ## Shape catalogue — src/GridReader/libs/geometry/Shape.py

Only the tables the verified operations read are embedded. -/

namespace Triangle

/-- Shape.py line 5. -/
def dimension : ℕ := 2

/-- Shape.py line 6. -/
def numberOfInnerFaces : ℕ := 3

/-- Shape.py line 10: reference shape-function derivatives at each of the
three inner-face integration points (vertex × reference-direction). -/
def innerFaceShapeFunctionDerivatives : List (List (List ℚ)) :=
  [ [[-1, -1], [1, 0], [0, 1]],
    [[-1, -1], [1, 0], [0, 1]],
    [[-1, -1], [1, 0], [0, 1]] ]

/-- Shape.py line 11: for each inner face, the backward and forward
neighbour vertex (local indices). -/
def innerFaceNeighbourVertices : List (List ℕ) :=
  [[0, 1], [1, 2], [2, 0]]

/-- Shape.py lines 27-32: area vector of inner face `local` as
centroid − 0.5·v1 − 0.5·v2, v1/v2 read from Triangle's own
innerFaceNeighbourVertices.  Out-of-range indexing (a numpy IndexError)
is `none`. -/
def getInnerFaceAreaVector (localFaceIndex : ℕ) (elementCentroid : Point)
    (elementVertices : List Point) : Option Point := do
  let idxPair ← Triangle.innerFaceNeighbourVertices.get? localFaceIndex
  let vertex1 ← elementVertices.get? (idxPair.getD 0 0)
  let vertex2 ← elementVertices.get? (idxPair.getD 1 0)
  pure (((Point.smul 1 elementCentroid).add
          (Point.smul (-(1 : ℚ)/2) vertex1)).add
          (Point.smul (-(1 : ℚ)/2) vertex2))

end Triangle

namespace Quadrilateral

/-- Shape.py line 35. -/
def dimension : ℕ := 2

/-- Shape.py line 36. -/
def numberOfInnerFaces : ℕ := 4

/-- Shape.py line 40. -/
def innerFaceShapeFunctionDerivatives : List (List (List ℚ)) :=
  [ [[-3/4, -1/2], [3/4, -1/2], [1/4, 1/2], [-1/4, 1/2]],
    [[-1/2, -1/4], [1/2, -3/4], [1/2, 3/4], [-1/2, 1/4]],
    [[-1/4, -1/2], [1/4, -1/2], [3/4, 1/2], [-3/4, 1/2]],
    [[-1/2, -3/4], [1/2, -1/4], [1/2, 1/4], [-1/2, 3/4]] ]

/-- Shape.py line 41. -/
def innerFaceNeighbourVertices : List (List ℕ) :=
  [[0, 1], [1, 2], [2, 3], [3, 0]]

/-- Shape.py lines 57-62.  The source reads
`Triangle.innerFaceNeighbourVertices` here (not Quadrilateral's own
table); the embedding reproduces that literally.  Out-of-range indexing
(a numpy IndexError) is `none`. -/
def getInnerFaceAreaVector (localFaceIndex : ℕ) (elementCentroid : Point)
    (elementVertices : List Point) : Option Point := do
  let idxPair ← Triangle.innerFaceNeighbourVertices.get? localFaceIndex
  let vertex1 ← elementVertices.get? (idxPair.getD 0 0)
  let vertex2 ← elementVertices.get? (idxPair.getD 1 0)
  pure (((Point.smul 1 elementCentroid).add
          (Point.smul (-(1 : ℚ)/2) vertex1)).add
          (Point.smul (-(1 : ℚ)/2) vertex2))

end Quadrilateral

/-! ## Element-shape dispatch

The grid selects the descriptor by vertex count (Triangle._is / Quadrilateral._is):
3 vertices select Triangle, 4 select Quadrilateral. -/

inductive Shape where
  | triangle
  | quadrilateral
deriving DecidableEq, Repr

namespace Shape

/-- Vertex count of the topology (the `_is` predicates: 3 for Triangle,
4 for Quadrilateral). -/
def numberOfVertices : Shape → ℕ
  | .triangle => 3
  | .quadrilateral => 4

def numberOfInnerFaces : Shape → ℕ
  | .triangle => Triangle.numberOfInnerFaces
  | .quadrilateral => Quadrilateral.numberOfInnerFaces

def innerFaceShapeFunctionDerivatives : Shape → List (List (List ℚ))
  | .triangle => Triangle.innerFaceShapeFunctionDerivatives
  | .quadrilateral => Quadrilateral.innerFaceShapeFunctionDerivatives

def innerFaceNeighbourVertices : Shape → List (List ℕ)
  | .triangle => Triangle.innerFaceNeighbourVertices
  | .quadrilateral => Quadrilateral.innerFaceNeighbourVertices

end Shape

/-! ## numpy array helpers

2-D numpy arrays are modelled as lists of rows of rationals. -/

/-- Entry (i, j) of a list-of-rows matrix (0 outside the stored extent). -/
def mget (A : List (List ℚ)) (i j : ℕ) : ℚ := (A.getD i []).getD j 0

/-- np.transpose for a rectangular list-of-rows matrix. -/
def npTranspose (A : List (List ℚ)) : List (List ℚ) :=
  (List.range (A.headD []).length).map fun i =>
    (List.range A.length).map fun j => mget A j i

/-- np.matmul for rectangular list-of-rows matrices. -/
def npMatmul (A B : List (List ℚ)) : List (List ℚ) :=
  (List.range A.length).map fun i =>
    (List.range ((B.headD []).length)).map fun j =>
      ∑ k ∈ Finset.range B.length, mget A i k * mget B k j

/-- Determinant of a 2×2 list-of-rows matrix. -/
def det2 (A : List (List ℚ)) : ℚ :=
  mget A 0 0 * mget A 1 1 - mget A 0 1 * mget A 1 0

/-- np.linalg.inv modelled for the 2×2 matrices used here (the Jacobians of
2-D elements).  numpy raises on a singular matrix; every claim touching the
inverse carries a non-singularity hypothesis. -/
def npInv2 (A : List (List ℚ)) : List (List ℚ) :=
  [[mget A 1 1 / det2 A, -(mget A 0 1) / det2 A],
   [-(mget A 1 0) / det2 A, mget A 0 0 / det2 A]]

/-- Modelled from the spec: `Element.getJacobian(localDerivatives)` — Element.py
is not under src/.  "builds the Jacobian matrix of the coordinate map at a given
set of reference-shape-function derivatives by contracting vertex coordinates
with the derivative table".  `localDerivatives` is (vertex × reference-direction);
`vertexCoordinates` is the element's (vertex × spatial-coordinate) table, so the
contraction is transpose(localDerivatives) · vertexCoordinates, a 2×2 matrix for
the 2-D elements here. -/
def getJacobian (localDerivatives vertexCoordinates : List (List ℚ)) :
    List (List ℚ) :=
  npMatmul (npTranspose localDerivatives) vertexCoordinates

/-- Modelled from the spec: `Element.getTransposedJacobian(localDerivatives)` —
Element.py is not under src/; the transpose of `getJacobian`, as its name and the
spec's formula "inverse(transpose(Jacobian(localDerivatives)))" for
calculateGlobalDerivatives require. -/
def getTransposedJacobian (localDerivatives vertexCoordinates : List (List ℚ)) :
    List (List ℚ) :=
  npTranspose (getJacobian localDerivatives vertexCoordinates)

namespace InnerFace

/-- src/PyEFVLib/geometry/InnerFace.py lines 20-22: the global-derivative matrix
computed at InnerFace construction, for the inner face `localFaceIndex` of an
element with shape `s` and vertex-coordinate table `X`. -/
def calculateGlobalDerivatives (s : Shape) (X : List (List ℚ))
    (localFaceIndex : ℕ) : List (List ℚ) :=
  npMatmul
    (npInv2 (getTransposedJacobian
      ((s.innerFaceShapeFunctionDerivatives).getD localFaceIndex []) X))
    (npTranspose ((s.innerFaceShapeFunctionDerivatives).getD localFaceIndex []))

end InnerFace

namespace HeatTransfer2D

/-- src/libs/simulation/HeatTransfer2D.py lines 46-50: the global-derivative
matrix the solver-setup refresh (calculateInnerFacesGlobalDerivatives) installs
on the inner face `localFaceIndex` — note it inverts `getJacobian`, not
`getTransposedJacobian`. -/
def innerFaceGlobalDerivatives (s : Shape) (X : List (List ℚ))
    (localFaceIndex : ℕ) : List (List ℚ) :=
  npMatmul
    (npInv2 (getJacobian
      ((s.innerFaceShapeFunctionDerivatives).getD localFaceIndex []) X))
    (npTranspose ((s.innerFaceShapeFunctionDerivatives).getD localFaceIndex []))

end HeatTransfer2D

/-! ## Elements as the solver reads them -/

/-- A mesh vertex: its stable global handle and its control volume. -/
structure Vertex where
  handle : ℕ
  volume : ℚ

/-- An inner face as computeLocalMatrix reads it: its local index within the
owning element (`local` in the source), the globalDerivatives matrix installed
on it, and its area vector. -/
structure InnerFace where
  localFaceIndex : ℕ
  globalDerivatives : List (List ℚ)
  area : Point

/-- An element: its shape descriptor, its ordered vertices, its sub-element
volumes and its owned inner faces. -/
structure Element where
  shape : Shape
  vertices : List Vertex
  subelementVolumes : List ℚ
  innerFaces : List InnerFace

/-- One iteration of the innerFace loop of computeLocalMatrix
(HeatTransfer2D.py lines 157-168): pad the globalDerivatives with a zero row
when it has 2 rows, drop the last row and the area vector's third coordinate,
form the diffusive-flux vector, and scatter −flux into the backward-neighbour
row and +flux into the forward-neighbour row, for the columns 0..n−1 the
source's `for i in range(numberOfVertices)` loop visits. -/
def computeLocalMatrixStep (shape : Shape) (numberOfVertices : ℕ)
    (permeability : ℚ) (localMatrix : ℕ → ℕ → ℚ) (innerFace : InnerFace) :
    ℕ → ℕ → ℚ :=
  let derivatives0 := innerFace.globalDerivatives
  let derivatives :=
    if derivatives0.length = 2 then
      derivatives0 ++ [List.replicate (derivatives0.headD []).length 0]
    else derivatives0
  let sliced := derivatives.dropLast
  let areaCoords := innerFace.area.getCoordinates.dropLast
  let diffusiveFlux : ℕ → ℚ := fun i =>
    permeability * ∑ k ∈ Finset.range sliced.length,
      mget sliced k i * areaCoords.getD k 0
  let backwardVertexLocalHandle :=
    ((shape.innerFaceNeighbourVertices).getD innerFace.localFaceIndex []).getD 0 0
  let forwardVertexLocalHandle :=
    ((shape.innerFaceNeighbourVertices).getD innerFace.localFaceIndex []).getD 1 0
  fun p q =>
    localMatrix p q
      + (if p = backwardVertexLocalHandle ∧ q < numberOfVertices then
          -(diffusiveFlux q) else 0)
      + (if p = forwardVertexLocalHandle ∧ q < numberOfVertices then
          diffusiveFlux q else 0)

/-- src/libs/simulation/HeatTransfer2D.py lines 154-169: the local
diffusive-flux matrix of an element, as a total entry function (numpy's
numberOfVertices × numberOfVertices zero array only ever receives writes at
the rows/columns the loop touches; all other entries stay 0).  The third
argument mirrors the unused first-iteration flag `b` of the source. -/
def computeLocalMatrix (element : Element) (permeability : ℚ) (b : Bool) :
    ℕ → ℕ → ℚ :=
  element.innerFaces.foldl
    (computeLocalMatrixStep element.shape element.vertices.length permeability)
    (fun _ _ => 0)

/-- The element as HeatTransfer2D.settings leaves it for assembly: inner face l
carries the globalDerivatives the setup refresh installed
(calculateInnerFacesGlobalDerivatives, lines 46-50); the face area vectors are
unconstrained parameters here. -/
def elementWithRefreshedDerivatives (s : Shape) (X : List (List ℚ))
    (vertices : List Vertex) (subelementVolumes : List ℚ)
    (areas : ℕ → Point) : Element :=
  { shape := s
    vertices := vertices
    subelementVolumes := subelementVolumes
    innerFaces := (List.range s.numberOfInnerFaces).map fun l =>
      { localFaceIndex := l
        globalDerivatives := HeatTransfer2D.innerFaceGlobalDerivatives s X l
        area := areas l } }

/-! ## The transient solver — src/libs/simulation/HeatTransfer2D.py

The spec's external collaborators stay outside the embedding: the dense
linear solve (numpy, "external linear-algebra solve") and the Euclidean norm
of the absent Point.py enter as function parameters; console printing, CGNS
saving and wall-clock timing (I/O only) are omitted; the simulated-time
counter the timer carries is part of the state. -/

/-- An outer face of a boundary facet: its handle (keying the boundary-value
lookup), its associated vertex, and its area vector. -/
structure OuterFace where
  handle : ℕ
  vertex : Vertex
  area : Point

/-- A boundary facet: the outer faces composing it. -/
structure Facet where
  outerFaces : List OuterFace

/-- A Neumann boundary condition: its boundary's facets and its value lookup
keyed by outer-face handle. -/
structure NeumannBoundaryCondition where
  facets : List Facet
  getValue : ℕ → ℚ

/-- A Dirichlet boundary condition: its boundary's vertices and its value
lookup keyed by vertex handle. -/
structure DirichletBoundaryCondition where
  vertices : List Vertex
  getValue : ℕ → ℚ

/-- A region: a named group of elements sharing material properties, keyed by
its handle into the property table. -/
structure Region where
  handle : ℕ
  elements : List Element

/-- The per-region material properties (problemData.propertyData entries). -/
structure PropertyData where
  density : ℚ
  heatCapacity : ℚ
  conductivity : ℚ
  internalHeatGeneration : ℚ

/-- The problem configuration the solver consumes (ProblemData2D). -/
structure ProblemData where
  propertyData : ℕ → PropertyData
  neumannBoundaries : List NeumannBoundaryCondition
  dirichletBoundaries : List DirichletBoundaryCondition
  timeStep : ℚ
  initialValue : ℚ
  finalTime : ℚ
  tolerance : ℚ
  maxNumberOfIterations : ℕ

/-- The mesh as the solver reads it: the vertex count (grid.vertices.size)
and the regions. -/
structure Grid where
  numberOfVertices : ℕ
  regions : List Region

/-- The solver's mutable state: the global matrix and independent vector, the
two temperature fields, and the loop bookkeeping (difference, iteration,
converged, and the timer's simulated-time counter). -/
structure SolverState where
  matrix : ℕ → ℕ → ℚ
  independent : ℕ → ℚ
  numericalTemperature : ℕ → ℚ
  oldTemperature : ℕ → ℚ
  difference : ℚ
  iteration : ℕ
  converged : Bool
  currentTime : ℚ

namespace HeatTransfer2D

/-- HeatTransfer2D.py lines 56-61 (# Internal Heat Generation): for each
region, element and vertex, assign (not accumulate)
vertex.volume × InternalHeatGeneration into the independent vector. -/
def internalHeatGeneration (pd : ProblemData) (grid : Grid)
    (independent : ℕ → ℚ) : ℕ → ℚ :=
  grid.regions.foldl (fun independent region =>
    region.elements.foldl (fun independent element =>
      element.vertices.foldl (fun independent vertex =>
        Function.update independent vertex.handle
          (vertex.volume * (pd.propertyData region.handle).internalHeatGeneration))
        independent)
      independent)
    independent

/-- HeatTransfer2D.py lines 63-82 (# TransientTermAdder and
DiffusiveFluxAdder), acting on the (matrix, independent) pair: per region
compute accumulation = density·heatCapacity/timeStep; per element compute the
local flux matrix; per (local, vertex) add the transient term to the
independent vector and — on iteration 0 only — add the diagonal accumulation
term and scatter the local flux row into the global matrix. -/
def transientDiffusive (pd : ProblemData) (grid : Grid)
    (oldTemperature : ℕ → ℚ) (iteration : ℕ)
    (state : (ℕ → ℕ → ℚ) × (ℕ → ℚ)) : (ℕ → ℕ → ℚ) × (ℕ → ℚ) :=
  grid.regions.foldl (fun state region =>
    let accumulation := (pd.propertyData region.handle).density *
      (pd.propertyData region.handle).heatCapacity / pd.timeStep
    region.elements.foldl (fun state element =>
      let localMatrixFlux :=
        computeLocalMatrix element (pd.propertyData region.handle).conductivity
          (iteration == 0)
      (element.vertices.enum).foldl (fun state lv =>
        let index := lv.2.handle
        let independent1 := Function.update state.2 index
          (state.2 index + element.subelementVolumes.getD lv.1 0 *
            accumulation * oldTemperature lv.2.handle)
        let matrix1 :=
          if iteration = 0 then
            (element.vertices.enum).foldl (fun m qv => fun r c =>
                m r c + (if r = index ∧ c = qv.2.handle then
                  localMatrixFlux lv.1 qv.1 else 0))
              (fun r c => state.1 r c + (if r = index ∧ c = index then
                element.subelementVolumes.getD lv.1 0 * accumulation else 0))
          else state.1
        (matrix1, independent1))
        state)
      state)
    state

/-- HeatTransfer2D.py lines 84-88 (# NeumannBoundaryAdder): subtract
boundaryValue × ‖outerFaceArea‖ from the independent vector at the face's
vertex.  `norm` is the Euclidean norm of the out-of-scope geometry layer
(np.linalg.norm on the floating-point coordinates), passed in as the external
collaborator it is. -/
def neumannBoundaryAdder (pd : ProblemData) (norm : Point → ℚ)
    (independent : ℕ → ℚ) : ℕ → ℚ :=
  pd.neumannBoundaries.foldl (fun independent bCondition =>
    bCondition.facets.foldl (fun independent facet =>
      facet.outerFaces.foldl (fun independent outerFace =>
        Function.update independent outerFace.vertex.handle
          (independent outerFace.vertex.handle +
            -1 * bCondition.getValue outerFace.handle * norm outerFace.area))
        independent)
      independent)
    independent

/-- HeatTransfer2D.py lines 91-94 (# DirichletBoundaryAdder, independent
part): assign the prescribed value at every boundary vertex. -/
def dirichletIndependent (pd : ProblemData) (independent : ℕ → ℚ) : ℕ → ℚ :=
  pd.dirichletBoundaries.foldl (fun independent bCondition =>
    bCondition.vertices.foldl (fun independent vertex =>
      Function.update independent vertex.handle
        (bCondition.getValue vertex.handle))
      independent)
    independent

/-- HeatTransfer2D.py lines 96-102 (iteration-0 Dirichlet matrix fixing): zero
each boundary vertex's matrix row and set its diagonal entry to 1. -/
def dirichletMatrix (pd : ProblemData) (matrix : ℕ → ℕ → ℚ) : ℕ → ℕ → ℚ :=
  pd.dirichletBoundaries.foldl (fun matrix bCondition =>
    bCondition.vertices.foldl (fun matrix vertex =>
      Function.update matrix vertex.handle
        (Function.update (fun _ => (0 : ℚ)) vertex.handle 1))
      matrix)
    matrix

/-- HeatTransfer2D.py lines 52-104 (addToLinearSystem): zero the independent
vector, then run the four assembly passes in source order; the matrix-fixing
Dirichlet pass runs only on iteration 0. -/
def addToLinearSystem (pd : ProblemData) (grid : Grid) (norm : Point → ℚ)
    (s : SolverState) : SolverState :=
  let independent1 := internalHeatGeneration pd grid (fun _ => 0)
  let td := transientDiffusive pd grid s.oldTemperature s.iteration
    (s.matrix, independent1)
  let independent2 := neumannBoundaryAdder pd norm td.2
  let independent3 := dirichletIndependent pd independent2
  let matrix1 := if s.iteration = 0 then dirichletMatrix pd td.1 else td.1
  { s with matrix := matrix1, independent := independent3 }

/-- Python's builtin max over a list, as the source's
`max([abs(t - o) for ...])` uses it.  Python raises on an empty list; the
headD default keeps the model total (solver grids have at least one vertex,
and every claim touching the maximum assumes so). -/
def pyMax (l : List ℚ) : ℚ := l.foldl max (l.headD 0)

/-- HeatTransfer2D.py lines 111-121 (checkConvergence): compute the maximal
absolute temperature change, advance oldTemperature, and return converged —
true when the simulated time exceeds finalTime, else the tolerance test when
iteration > 0, else false. -/
def checkConvergence (pd : ProblemData) (grid : Grid) (s : SolverState) :
    Bool × SolverState :=
  let difference := pyMax ((List.range grid.numberOfVertices).map fun v =>
    |s.numericalTemperature v - s.oldTemperature v|)
  let converged : Bool :=
    if pd.finalTime < s.currentTime then true
    else if 0 < s.iteration then decide (difference < pd.tolerance)
    else false
  (converged,
    { s with difference := difference,
             oldTemperature := s.numericalTemperature })

/-- HeatTransfer2D.py lines 36-44, one pass of the run loop: assemble, solve
(`solve` is numpy's external dense linear solve), advance the simulated time
by timeStep, check convergence, increment the iteration counter.  Console
printing and CGNS saving are external I/O. -/
def loopBody (pd : ProblemData) (grid : Grid) (norm : Point → ℚ)
    (solve : (ℕ → ℕ → ℚ) → (ℕ → ℚ) → (ℕ → ℚ)) (s : SolverState) :
    SolverState :=
  let s1 := addToLinearSystem pd grid norm s
  let s2 := { s1 with numericalTemperature := solve s1.matrix s1.independent }
  let s3 := { s2 with currentTime := s2.currentTime + pd.timeStep }
  let c := checkConvergence pd grid s3
  { c.2 with converged := c.1, iteration := c.2.iteration + 1 }

/-- HeatTransfer2D.py lines 34-44 (run): iterate the loop body while not
converged and iteration < maxNumberOfIterations.  Returns the final state and
the number of loop-body executions. -/
def run (pd : ProblemData) (grid : Grid) (norm : Point → ℚ)
    (solve : (ℕ → ℕ → ℚ) → (ℕ → ℚ) → (ℕ → ℚ)) (s : SolverState) :
    SolverState × ℕ :=
  if h : s.converged = false ∧ s.iteration < pd.maxNumberOfIterations then
    let r := run pd grid norm solve (loopBody pd grid norm solve s)
    (r.1, r.2 + 1)
  else (s, 0)
termination_by pd.maxNumberOfIterations - s.iteration
decreasing_by
  simp only [show (loopBody pd grid norm solve s).iteration = s.iteration + 1
    from rfl]
  omega

/-- HeatTransfer2D.py lines 26-32 (the state fields settings() initializes):
zero temperatures and matrix, oldTemperature at initialValue, difference 0,
iteration 0, not converged.  The timer's initial simulated time is a
parameter (Timer.py is an external collaborator). -/
def settingsState (pd : ProblemData) (currentTime0 : ℚ) : SolverState :=
  { matrix := fun _ _ => 0
    independent := fun _ => 0
    numericalTemperature := fun _ => 0
    oldTemperature := fun _ => pd.initialValue
    difference := 0
    iteration := 0
    converged := false
    currentTime := currentTime0 }

/-- The Internal Heat Generation writes in region/element/vertex iteration
order, as (vertex handle, vertex.volume × InternalHeatGeneration) pairs. -/
def heatGenerationWrites (pd : ProblemData) (grid : Grid) : List (ℕ × ℚ) :=
  grid.regions.flatMap fun region =>
    region.elements.flatMap fun element =>
      element.vertices.map fun vertex =>
        (vertex.handle,
          vertex.volume * (pd.propertyData region.handle).internalHeatGeneration)

/-- The Dirichlet independent-vector writes in boundary-condition/vertex
iteration order, as (vertex handle, prescribed value) pairs. -/
def dirichletWrites (pd : ProblemData) : List (ℕ × ℚ) :=
  pd.dirichletBoundaries.flatMap fun bCondition =>
    bCondition.vertices.map fun vertex =>
      (vertex.handle, bCondition.getValue vertex.handle)

/-- Replay a list of (position, value) assignments left to right. -/
def applyWrites (ws : List (ℕ × ℚ)) (independent : ℕ → ℚ) : ℕ → ℚ :=
  ws.foldl (fun f p => Function.update f p.1 p.2) independent

end HeatTransfer2D

/-! ## Helper lemmas -/

/-- Entry access of a matrix built from nested List.range maps. -/
theorem mget_map_range (f : ℕ → ℕ → ℚ) (m n i j : ℕ) :
    mget ((List.range m).map fun a => (List.range n).map fun c => f a c) i j
      = if i < m ∧ j < n then f i j else 0 := by
  unfold mget
  by_cases him : i < m
  · have h1 : ((List.range m).map fun a => (List.range n).map fun c => f a c).getD i []
        = (List.range n).map fun c => f i c := by
      rw [List.getD_eq_getElem?_getD, List.getElem?_map, List.getElem?_range him]
      rfl
    rw [h1]
    by_cases hjn : j < n
    · rw [List.getD_eq_getElem?_getD, List.getElem?_map, List.getElem?_range hjn]
      simp [him, hjn]
    · rw [List.getD_eq_getElem?_getD, List.getElem?_map,
        List.getElem?_eq_none (by simpa using Nat.le_of_not_lt hjn)]
      simp [him, hjn]
  · have h1 : ((List.range m).map fun a => (List.range n).map fun c => f a c).getD i []
        = [] := by
      rw [List.getD_eq_getElem?_getD,
        List.getElem?_eq_none (by simpa using Nat.le_of_not_lt him)]
      rfl
    rw [h1]
    simp [him]

/-- Entry formula for npMatmul. -/
theorem mget_npMatmul (A B : List (List ℚ)) (i j : ℕ) :
    mget (npMatmul A B) i j =
      if i < A.length ∧ j < (B.headD []).length then
        ∑ k ∈ Finset.range B.length, mget A i k * mget B k j
      else 0 := by
  unfold npMatmul
  exact mget_map_range _ _ _ _ _

/-- Every row of a matrix product inherits zero row sums from the right
factor. -/
theorem sum_row_npMatmul_eq_zero (A B : List (List ℚ)) (n k : ℕ)
    (hcol : (B.headD []).length = n)
    (hB : ∀ m < B.length, ∑ q ∈ Finset.range n, mget B m q = 0) :
    ∑ q ∈ Finset.range n, mget (npMatmul A B) k q = 0 := by
  by_cases hk : k < A.length
  · have hrw : ∀ q ∈ Finset.range n, mget (npMatmul A B) k q =
        ∑ m ∈ Finset.range B.length, mget A k m * mget B m q := by
      intro q hq
      rw [mget_npMatmul, if_pos ⟨hk, hcol ▸ Finset.mem_range.mp hq⟩]
    rw [Finset.sum_congr rfl hrw, Finset.sum_comm]
    refine Finset.sum_eq_zero fun m hm => ?_
    rw [← Finset.mul_sum, hB m (Finset.mem_range.mp hm), mul_zero]
  · refine Finset.sum_eq_zero fun q hq => ?_
    rw [mget_npMatmul, if_neg fun h => hk h.1]

/-- The two neighbour-vertex indices of every valid inner face are valid local
vertex indices of the topology. -/
theorem neighbourVertices_getD_lt (s : Shape) (l : ℕ)
    (hl : l < s.numberOfInnerFaces) :
    ((s.innerFaceNeighbourVertices).getD l []).getD 0 0 < s.numberOfVertices ∧
    ((s.innerFaceNeighbourVertices).getD l []).getD 1 0 < s.numberOfVertices := by
  cases s
  · simp only [Shape.numberOfInnerFaces, Triangle.numberOfInnerFaces] at hl
    interval_cases l <;> decide
  · simp only [Shape.numberOfInnerFaces, Quadrilateral.numberOfInnerFaces] at hl
    interval_cases l <;> decide

/-- The transposed derivative table of a valid inner face has rows of length
numberOfVertices. -/
theorem transpose_derivatives_headD_length (s : Shape) (l : ℕ)
    (hl : l < s.numberOfInnerFaces) :
    ((npTranspose ((s.innerFaceShapeFunctionDerivatives).getD l [])).headD []).length
      = s.numberOfVertices := by
  cases s
  · simp only [Shape.numberOfInnerFaces, Triangle.numberOfInnerFaces] at hl
    interval_cases l <;> rfl
  · simp only [Shape.numberOfInnerFaces, Quadrilateral.numberOfInnerFaces] at hl
    interval_cases l <;> rfl

/-- The transposed derivative table of a valid inner face has 2 rows (one per
reference direction). -/
theorem transpose_derivatives_length (s : Shape) (l : ℕ)
    (hl : l < s.numberOfInnerFaces) :
    (npTranspose ((s.innerFaceShapeFunctionDerivatives).getD l [])).length = 2 := by
  cases s
  · simp only [Shape.numberOfInnerFaces, Triangle.numberOfInnerFaces] at hl
    interval_cases l <;> rfl
  · simp only [Shape.numberOfInnerFaces, Quadrilateral.numberOfInnerFaces] at hl
    interval_cases l <;> rfl

/-- Partition-of-unity of the reference shape functions: each row of the
transposed derivative tables sums to zero over the topology's vertices. -/
theorem transpose_derivatives_row_sums_zero (s : Shape) (l m : ℕ)
    (hl : l < s.numberOfInnerFaces) (hm : m < 2) :
    ∑ q ∈ Finset.range s.numberOfVertices,
      mget (npTranspose ((s.innerFaceShapeFunctionDerivatives).getD l [])) m q
      = 0 := by
  cases s
  · simp only [Shape.numberOfInnerFaces, Triangle.numberOfInnerFaces] at hl
    interval_cases l <;> interval_cases m <;>
      norm_num [Shape.numberOfVertices, Shape.innerFaceShapeFunctionDerivatives,
        Triangle.innerFaceShapeFunctionDerivatives, npTranspose, mget,
        List.range_succ, Finset.sum_range_succ]
  · simp only [Shape.numberOfInnerFaces, Quadrilateral.numberOfInnerFaces] at hl
    interval_cases l <;> interval_cases m <;>
      norm_num [Shape.numberOfVertices, Shape.innerFaceShapeFunctionDerivatives,
        Quadrilateral.innerFaceShapeFunctionDerivatives, npTranspose, mget,
        List.range_succ, Finset.sum_range_succ]

/-- The refresh-installed global-derivative matrix has 2 rows. -/
theorem innerFaceGlobalDerivatives_length (s : Shape) (X : List (List ℚ))
    (l : ℕ) :
    (HeatTransfer2D.innerFaceGlobalDerivatives s X l).length = 2 := by
  simp [HeatTransfer2D.innerFaceGlobalDerivatives, npMatmul, npInv2]

/-- Every row of the refresh-installed global-derivative matrix sums to zero
over the element's vertices. -/
theorem refreshed_row_sums_zero (s : Shape) (X : List (List ℚ)) (l k : ℕ)
    (hl : l < s.numberOfInnerFaces) :
    ∑ q ∈ Finset.range s.numberOfVertices,
      mget (HeatTransfer2D.innerFaceGlobalDerivatives s X l) k q = 0 := by
  unfold HeatTransfer2D.innerFaceGlobalDerivatives
  refine sum_row_npMatmul_eq_zero _ _ _ _
    (transpose_derivatives_headD_length s l hl) ?_
  intro m hm
  rw [transpose_derivatives_length s l hl] at hm
  exact transpose_derivatives_row_sums_zero s l m hl hm

/-- The diffusive flux of a refresh-derived face sums to zero over the
element's vertices, whatever the face area coordinates. -/
theorem refreshed_flux_sum_zero (s : Shape) (X : List (List ℚ)) (l : ℕ)
    (hl : l < s.numberOfInnerFaces) (w : ℚ) (c : ℕ → ℚ) :
    ∑ q ∈ Finset.range s.numberOfVertices,
      (w * ∑ k ∈ Finset.range 2,
        mget (HeatTransfer2D.innerFaceGlobalDerivatives s X l) k q * c k) = 0 := by
  rw [← Finset.mul_sum, Finset.sum_comm]
  have h : ∀ k ∈ Finset.range 2,
      ∑ q ∈ Finset.range s.numberOfVertices,
        mget (HeatTransfer2D.innerFaceGlobalDerivatives s X l) k q * c k = 0 := by
    intro k _
    rw [← Finset.sum_mul, refreshed_row_sums_zero s X l k hl, zero_mul]
  rw [Finset.sum_congr rfl h]
  simp

namespace HeatTransfer2D

/-- Replaying appended write lists is replaying them in sequence. -/
theorem applyWrites_append (a c : List (ℕ × ℚ)) (independent : ℕ → ℚ) :
    applyWrites (a ++ c) independent = applyWrites c (applyWrites a independent) :=
  List.foldl_append _ _ _ _

/-- A replayed write list leaves, at each position, the value of the last
write to that position (or the initial value when no write touches it). -/
theorem applyWrites_eq_lastWrite (ws : List (ℕ × ℚ)) :
    ∀ (independent : ℕ → ℚ) (i : ℕ),
      applyWrites ws independent i =
        ((ws.reverse.find? fun p => p.1 == i).elim (independent i) Prod.snd) := by
  induction ws with
  | nil => intro independent i; rfl
  | cons w ws ih =>
    intro independent i
    show applyWrites ws (Function.update independent w.1 w.2) i = _
    rw [ih, List.reverse_cons, List.find?_append]
    cases hfind : ws.reverse.find? fun p => p.1 == i with
    | some v => simp [hfind]
    | none =>
      by_cases hw : w.1 = i
      · have hbeq : (w.1 == i) = true := beq_iff_eq.mpr hw
        simp [hfind, List.find?, hbeq, Function.update_apply, hw]
      · have hbeq : (w.1 == i) = false := beq_eq_false_iff_ne.mpr hw
        have hw' : ¬i = w.1 := fun h => hw h.symm
        simp [hfind, List.find?, hbeq, Function.update_apply, hw']

/-- The vertex-level fold of the heat-generation pass is a write replay. -/
theorem heatGen_vertexFold_eq (pd : ProblemData) (rh : ℕ) (vs : List Vertex)
    (independent : ℕ → ℚ) :
    vs.foldl (fun independent vertex =>
      Function.update independent vertex.handle
        (vertex.volume * (pd.propertyData rh).internalHeatGeneration))
      independent =
    applyWrites (vs.map fun vertex => (vertex.handle,
      vertex.volume * (pd.propertyData rh).internalHeatGeneration))
      independent := by
  unfold applyWrites
  rw [List.foldl_map]

/-- The element-level fold of the heat-generation pass is a write replay. -/
theorem heatGen_elementFold_eq (pd : ProblemData) (rh : ℕ) (es : List Element) :
    ∀ independent : ℕ → ℚ,
      es.foldl (fun independent element =>
        element.vertices.foldl (fun independent vertex =>
          Function.update independent vertex.handle
            (vertex.volume * (pd.propertyData rh).internalHeatGeneration))
          independent)
        independent =
      applyWrites (es.flatMap fun element =>
        element.vertices.map fun vertex => (vertex.handle,
          vertex.volume * (pd.propertyData rh).internalHeatGeneration))
        independent := by
  induction es with
  | nil => intro independent; rfl
  | cons e es ih =>
    intro independent
    rw [List.foldl_cons, List.flatMap_cons, applyWrites_append,
      ← heatGen_vertexFold_eq, ih]

/-- The Internal Heat Generation pass is exactly the replay of its write
list. -/
theorem internalHeatGeneration_eq_applyWrites (pd : ProblemData) (grid : Grid)
    (independent : ℕ → ℚ) :
    internalHeatGeneration pd grid independent =
      applyWrites (heatGenerationWrites pd grid) independent := by
  unfold internalHeatGeneration heatGenerationWrites
  obtain ⟨nv, rs⟩ := grid
  show rs.foldl _ independent = applyWrites (rs.flatMap _) independent
  induction rs generalizing independent with
  | nil => rfl
  | cons r rs ih =>
    rw [List.foldl_cons, List.flatMap_cons, applyWrites_append,
      ← heatGen_elementFold_eq, ih]

/-- The vertex-level fold of the Dirichlet independent pass is a write
replay. -/
theorem dirichlet_vertexFold_eq (bc : DirichletBoundaryCondition)
    (independent : ℕ → ℚ) :
    bc.vertices.foldl (fun independent vertex =>
      Function.update independent vertex.handle
        (bc.getValue vertex.handle)) independent =
    applyWrites (bc.vertices.map fun vertex =>
      (vertex.handle, bc.getValue vertex.handle)) independent := by
  unfold applyWrites
  rw [List.foldl_map]

/-- The Dirichlet independent pass is exactly the replay of its write list. -/
theorem dirichletIndependent_eq_applyWrites (pd : ProblemData) :
    ∀ independent : ℕ → ℚ,
      dirichletIndependent pd independent =
        applyWrites (dirichletWrites pd) independent := by
  unfold dirichletIndependent dirichletWrites
  induction pd.dirichletBoundaries with
  | nil => intro independent; rfl
  | cons bc bcs ih =>
    intro independent
    rw [List.foldl_cons, List.flatMap_cons, applyWrites_append,
      ← dirichlet_vertexFold_eq, ih]

/-- The transient/diffusive pass never touches the matrix after
iteration 0. -/
theorem transientDiffusive_fst (pd : ProblemData) (grid : Grid)
    (oldTemperature : ℕ → ℚ) (iteration : ℕ) (hit : iteration ≠ 0)
    (state : (ℕ → ℕ → ℚ) × (ℕ → ℚ)) :
    (transientDiffusive pd grid oldTemperature iteration state).1 = state.1 := by
  unfold transientDiffusive
  refine @List.foldlRecOn _ _
    (fun x : (ℕ → ℕ → ℚ) × (ℕ → ℚ) => x.1 = state.1) _ _ _ rfl ?_
  intro x hx region _
  refine @List.foldlRecOn _ _
    (fun y : (ℕ → ℕ → ℚ) × (ℕ → ℚ) => y.1 = state.1) _ _ _ hx ?_
  intro y hy element _
  refine @List.foldlRecOn _ _
    (fun z : (ℕ → ℕ → ℚ) × (ℕ → ℚ) => z.1 = state.1) _ _ _ hy ?_
  intro z hz lv _
  show (if iteration = 0 then _ else z.1) = state.1
  rw [if_neg hit]
  exact hz

/-- Any initial value below a max-fold is dominated by it. -/
theorem le_foldl_max (xs : List ℚ) : ∀ a : ℚ, a ≤ xs.foldl max a := by
  induction xs with
  | nil => intro a; exact le_refl a
  | cons x xs ih =>
    intro a
    rw [List.foldl_cons]
    exact le_trans (le_max_left a x) (ih (max a x))

/-- Every member of a list is dominated by a max-fold over it. -/
theorem foldl_max_le_of_mem (xs : List ℚ) :
    ∀ (a x : ℚ), x ∈ xs → x ≤ xs.foldl max a := by
  induction xs with
  | nil => intro a x hx; cases hx
  | cons y ys ih =>
    intro a x hx
    rw [List.foldl_cons]
    rcases List.mem_cons.mp hx with h | h
    · subst h
      exact le_trans (le_max_right a x) (le_foldl_max ys (max a x))
    · exact ih (max a y) x h

/-- A max-fold is its initial value or a member of the list. -/
theorem foldl_max_mem (xs : List ℚ) :
    ∀ a : ℚ, xs.foldl max a = a ∨ xs.foldl max a ∈ xs := by
  induction xs with
  | nil => intro a; exact Or.inl rfl
  | cons y ys ih =>
    intro a
    rw [List.foldl_cons]
    rcases ih (max a y) with h | h
    · rcases max_choice a y with hm | hm
      · exact Or.inl (h.trans hm)
      · rw [h, hm]
        exact Or.inr (List.mem_cons_self y ys)
    · exact Or.inr (List.mem_cons_of_mem y h)

/-- Python's max over a nonempty list returns a member. -/
theorem pyMax_mem (l : List ℚ) (h : l ≠ []) : pyMax l ∈ l := by
  cases l with
  | nil => exact absurd rfl h
  | cons x xs =>
    unfold pyMax
    simp only [List.headD_cons, List.foldl_cons, max_self]
    rcases foldl_max_mem xs x with h1 | h1
    · rw [h1]
      exact List.mem_cons_self x xs
    · exact List.mem_cons_of_mem x h1

/-- Python's max dominates every member of the list. -/
theorem le_pyMax (l : List ℚ) (x : ℚ) (hx : x ∈ l) : x ≤ pyMax l := by
  cases l with
  | nil => cases hx
  | cons y ys =>
    unfold pyMax
    simp only [List.headD_cons, List.foldl_cons, max_self]
    rcases List.mem_cons.mp hx with h | h
    · subst h
      exact le_foldl_max ys x
    · exact foldl_max_le_of_mem ys y x h

/-- Each loop pass increments the iteration counter by exactly one. -/
theorem loopBody_iteration (pd : ProblemData) (grid : Grid) (norm : Point → ℚ)
    (solve : (ℕ → ℕ → ℚ) → (ℕ → ℚ) → (ℕ → ℚ)) (s : SolverState) :
    (loopBody pd grid norm solve s).iteration = s.iteration + 1 := rfl

/-- The run loop executes its body at most maxNumberOfIterations − iteration
times. -/
theorem run_count_le (pd : ProblemData) (grid : Grid) (norm : Point → ℚ)
    (solve : (ℕ → ℕ → ℚ) → (ℕ → ℚ) → (ℕ → ℚ)) :
    ∀ (n : ℕ) (s : SolverState),
      pd.maxNumberOfIterations - s.iteration ≤ n →
      (run pd grid norm solve s).2 ≤ n := by
  intro n
  induction n with
  | zero =>
    intro s hs
    rw [run]
    split
    · next h => omega
    · simp
  | succ n ih =>
    intro s hs
    rw [run]
    split
    · next h =>
      have hb := ih (loopBody pd grid norm solve s)
        (by rw [loopBody_iteration]; omega)
      simpa using Nat.add_le_add_right hb 1
    · simp

/-- The run loop only stops converged or at the iteration cap. -/
theorem run_exit (pd : ProblemData) (grid : Grid) (norm : Point → ℚ)
    (solve : (ℕ → ℕ → ℚ) → (ℕ → ℚ) → (ℕ → ℚ)) :
    ∀ (n : ℕ) (s : SolverState),
      pd.maxNumberOfIterations - s.iteration ≤ n →
      ((run pd grid norm solve s).1.converged = true ∨
        pd.maxNumberOfIterations ≤ (run pd grid norm solve s).1.iteration) := by
  intro n
  induction n with
  | zero =>
    intro s hs
    rw [run]
    split
    · next h => omega
    · next h =>
      right
      show pd.maxNumberOfIterations ≤ s.iteration
      omega
  | succ n ih =>
    intro s hs
    rw [run]
    split
    · next h =>
      exact ih (loopBody pd grid norm solve s)
        (by rw [loopBody_iteration]; omega)
    · next h =>
      cases hb : s.converged with
      | true => exact Or.inl rfl
      | false =>
        right
        show pd.maxNumberOfIterations ≤ s.iteration
        rcases Decidable.not_and_iff_or_not.mp h with h1 | h2
        · exact absurd hb h1
        · omega

end HeatTransfer2D

/-- C1: falsified as stated — the claim requires Quadrilateral.getInnerFaceAreaVector
to select the two vertices from the quadrilateral's own innerFaceNeighbourVertices
table and to be defined for all 4 inner faces, but the source reads
Triangle.innerFaceNeighbourVertices: with centroid (0,0,0) and vertices
v0..v3 = (0,0,0),(10,0,0),(20,0,0),(30,0,0), inner face 3 fails with an index
error (none), and inner face 2 yields centroid − 0.5·v2 − 0.5·v0 = (−10,0,0)
instead of centroid − 0.5·v2 − 0.5·v3 = (−25,0,0). -/
theorem C1_quadrilateral_areaVector_usesTriangleTable :
    Quadrilateral.getInnerFaceAreaVector 3 ⟨0, 0, 0⟩
      [⟨0, 0, 0⟩, ⟨10, 0, 0⟩, ⟨20, 0, 0⟩, ⟨30, 0, 0⟩] = none ∧
    Quadrilateral.getInnerFaceAreaVector 2 ⟨0, 0, 0⟩
      [⟨0, 0, 0⟩, ⟨10, 0, 0⟩, ⟨20, 0, 0⟩, ⟨30, 0, 0⟩] =
      some (((Point.smul 1 ⟨0, 0, 0⟩).add
              (Point.smul (-(1 : ℚ)/2) ⟨20, 0, 0⟩)).add
              (Point.smul (-(1 : ℚ)/2) ⟨0, 0, 0⟩)) ∧
    ((Point.smul 1 ⟨0, 0, 0⟩).add
        (Point.smul (-(1 : ℚ)/2) ⟨20, 0, 0⟩)).add
        (Point.smul (-(1 : ℚ)/2) ⟨0, 0, 0⟩) ≠
      ((Point.smul 1 ⟨0, 0, 0⟩).add
        (Point.smul (-(1 : ℚ)/2) ⟨20, 0, 0⟩)).add
        (Point.smul (-(1 : ℚ)/2) ⟨30, 0, 0⟩) := by
  refine ⟨rfl, rfl, ?_⟩
  norm_num [Point.smul, Point.add, Point.mk.injEq]

/-- C2 counterexample: the claim — refresh equals construction for any
non-singular Jacobian — fails at the triangle with vertex coordinates
(0,0), (1,0), (1,1): its Jacobian is non-singular but not symmetric, and the
matrix installed by HeatTransfer2D.calculateInnerFacesGlobalDerivatives
(inverse(Jacobian)·transpose(D)) differs from the one computed at InnerFace
construction (inverse(transpose(Jacobian))·transpose(D)). -/
theorem C2_refresh_construction_disagree :
    det2 (getJacobian
        ((Shape.triangle.innerFaceShapeFunctionDerivatives).getD 0 [])
        [[0, 0], [1, 0], [1, 1]]) ≠ 0 ∧
    HeatTransfer2D.innerFaceGlobalDerivatives Shape.triangle
        [[0, 0], [1, 0], [1, 1]] 0 ≠
      InnerFace.calculateGlobalDerivatives Shape.triangle
        [[0, 0], [1, 0], [1, 1]] 0 := by
  constructor <;>
    norm_num [HeatTransfer2D.innerFaceGlobalDerivatives,
      InnerFace.calculateGlobalDerivatives, getTransposedJacobian, getJacobian,
      Shape.innerFaceShapeFunctionDerivatives,
      Triangle.innerFaceShapeFunctionDerivatives, npMatmul, npTranspose, npInv2,
      det2, mget, List.range_succ, Finset.sum_range_succ]

/-- C2 amended: for every shape, vertex-coordinate table and inner face whose
(non-singular) Jacobian is moreover symmetric, the matrix recomputed by the
solver-setup refresh equals the matrix computed at InnerFace construction.
(The unamended claim fails for non-symmetric Jacobians because the refresh
inverts the Jacobian where the construction inverts its transpose.) -/
theorem C2_refresh_eq_construction_of_symmetric (s : Shape)
    (X : List (List ℚ)) (localFaceIndex : ℕ)
    (hdet : det2 (getJacobian
        ((s.innerFaceShapeFunctionDerivatives).getD localFaceIndex []) X) ≠ 0)
    (hsym : npTranspose (getJacobian
          ((s.innerFaceShapeFunctionDerivatives).getD localFaceIndex []) X) =
        getJacobian
          ((s.innerFaceShapeFunctionDerivatives).getD localFaceIndex []) X) :
    HeatTransfer2D.innerFaceGlobalDerivatives s X localFaceIndex =
      InnerFace.calculateGlobalDerivatives s X localFaceIndex := by
  unfold HeatTransfer2D.innerFaceGlobalDerivatives
    InnerFace.calculateGlobalDerivatives getTransposedJacobian
  rw [hsym]

/-- Witness for C2: the unit triangle (0,0), (1,0), (0,1) has the identity as
Jacobian — non-singular and symmetric — and there the refresh and the
construction agree. -/
theorem C2_refresh_eq_construction_witness :
    det2 (getJacobian
        ((Shape.triangle.innerFaceShapeFunctionDerivatives).getD 0 [])
        [[0, 0], [1, 0], [0, 1]]) ≠ 0 ∧
    npTranspose (getJacobian
        ((Shape.triangle.innerFaceShapeFunctionDerivatives).getD 0 [])
        [[0, 0], [1, 0], [0, 1]]) =
      getJacobian
        ((Shape.triangle.innerFaceShapeFunctionDerivatives).getD 0 [])
        [[0, 0], [1, 0], [0, 1]] ∧
    HeatTransfer2D.innerFaceGlobalDerivatives Shape.triangle
        [[0, 0], [1, 0], [0, 1]] 0 =
      InnerFace.calculateGlobalDerivatives Shape.triangle
        [[0, 0], [1, 0], [0, 1]] 0 := by
  refine ⟨?_, ?_, ?_⟩
  · norm_num [getJacobian, Shape.innerFaceShapeFunctionDerivatives,
      Triangle.innerFaceShapeFunctionDerivatives, npMatmul, npTranspose, det2,
      mget, List.range_succ, Finset.sum_range_succ]
  · norm_num [getJacobian, Shape.innerFaceShapeFunctionDerivatives,
      Triangle.innerFaceShapeFunctionDerivatives, npMatmul, npTranspose,
      mget, List.range_succ, Finset.sum_range_succ]
  · exact C2_refresh_eq_construction_of_symmetric Shape.triangle
      [[0, 0], [1, 0], [0, 1]] 0
      (by norm_num [getJacobian, Shape.innerFaceShapeFunctionDerivatives,
        Triangle.innerFaceShapeFunctionDerivatives, npMatmul, npTranspose, det2,
        mget, List.range_succ, Finset.sum_range_succ])
      (by norm_num [getJacobian, Shape.innerFaceShapeFunctionDerivatives,
        Triangle.innerFaceShapeFunctionDerivatives, npMatmul, npTranspose,
        mget, List.range_succ, Finset.sum_range_succ])

/-- C9: the result of computeLocalMatrix does not depend on its third
(first-iteration flag) argument — the source never reads `b`. -/
theorem C9_computeLocalMatrix_flag_irrelevant (element : Element)
    (conductivity : ℚ) :
    computeLocalMatrix element conductivity true =
      computeLocalMatrix element conductivity false := rfl

/-- C10: for every element whose vertex list matches its topology and whose
inner-face local indices are valid — with arbitrary global-derivative
matrices and area vectors on the faces — every column of computeLocalMatrix
sums to zero: each face adds a coefficient to the backward-neighbour row and
subtracts the same coefficient from the forward-neighbour row. -/
theorem C10_computeLocalMatrix_columns_sum_zero (element : Element)
    (permeability : ℚ) (b : Bool)
    (hlen : element.vertices.length = element.shape.numberOfVertices)
    (hfaces : ∀ f ∈ element.innerFaces,
      f.localFaceIndex < element.shape.numberOfInnerFaces) :
    ∀ q, ∑ p ∈ Finset.range element.vertices.length,
      computeLocalMatrix element permeability b p q = 0 := by
  intro q
  unfold computeLocalMatrix
  refine @List.foldlRecOn _ _ (fun M : ℕ → ℕ → ℚ =>
      ∑ p ∈ Finset.range element.vertices.length, M p q = 0)
    element.innerFaces _ _ ?_ ?_
  · simp
  · intro M hM face hface
    obtain ⟨hb, hf⟩ := neighbourVertices_getD_lt element.shape
      face.localFaceIndex (hfaces face hface)
    have hb' : ((element.shape.innerFaceNeighbourVertices).getD
        face.localFaceIndex []).getD 0 0 < element.vertices.length := by
      rw [hlen]; exact hb
    have hf' : ((element.shape.innerFaceNeighbourVertices).getD
        face.localFaceIndex []).getD 1 0 < element.vertices.length := by
      rw [hlen]; exact hf
    simp only [computeLocalMatrixStep]
    rw [Finset.sum_add_distrib, Finset.sum_add_distrib, hM]
    by_cases hq : q < element.vertices.length
    · simp only [hq, and_true]
      rw [Finset.sum_ite_eq', Finset.sum_ite_eq',
        if_pos (Finset.mem_range.mpr hb'), if_pos (Finset.mem_range.mpr hf')]
      ring
    · simp [hq]

/-- Witness for C10: a triangle element with one inner face carrying a
non-geometric global-derivative matrix and area vector still has zero column
sums (shown here for column 0). -/
theorem C10_columns_sum_zero_witness :
    ([⟨0, 1⟩, ⟨1, 1⟩, ⟨2, 1⟩] : List Vertex).length =
      Shape.triangle.numberOfVertices ∧
    (⟨0, [[1, 2, 3], [4, 5, 6]], ⟨7, 8, 9⟩⟩ : InnerFace).localFaceIndex <
      Shape.triangle.numberOfInnerFaces ∧
    ∑ p ∈ Finset.range 3,
      computeLocalMatrix
        ⟨Shape.triangle, [⟨0, 1⟩, ⟨1, 1⟩, ⟨2, 1⟩], [],
          [⟨0, [[1, 2, 3], [4, 5, 6]], ⟨7, 8, 9⟩⟩]⟩ 5 true p 0 = 0 := by
  refine ⟨rfl, by decide, ?_⟩
  exact C10_computeLocalMatrix_columns_sum_zero
    ⟨Shape.triangle, [⟨0, 1⟩, ⟨1, 1⟩, ⟨2, 1⟩], [],
      [⟨0, [[1, 2, 3], [4, 5, 6]], ⟨7, 8, 9⟩⟩]⟩ 5 true rfl
    (by intro f hf
        rw [List.mem_singleton] at hf
        subst hf
        decide) 0

/-- C3: for every element (triangle or quadrilateral) whose inner faces carry
the global derivatives installed by the solver-setup refresh, under the
claim's non-singular-Jacobian precondition, every row of
computeLocalMatrix sums to zero (discrete conservation). -/
theorem C3_computeLocalMatrix_rows_sum_zero (s : Shape) (X : List (List ℚ))
    (vertices : List Vertex) (subelementVolumes : List ℚ) (areas : ℕ → Point)
    (permeability : ℚ) (b : Bool)
    (hlen : vertices.length = s.numberOfVertices)
    (hdet : ∀ l < s.numberOfInnerFaces,
      det2 (getJacobian
        ((s.innerFaceShapeFunctionDerivatives).getD l []) X) ≠ 0) :
    ∀ p, ∑ q ∈ Finset.range vertices.length,
      computeLocalMatrix
        (elementWithRefreshedDerivatives s X vertices subelementVolumes areas)
        permeability b p q = 0 := by
  intro p
  unfold computeLocalMatrix elementWithRefreshedDerivatives
  refine @List.foldlRecOn _ _ (fun M : ℕ → ℕ → ℚ =>
      ∑ q ∈ Finset.range vertices.length, M p q = 0) _ _ _ ?_ ?_
  · simp
  · intro M hM face hface
    obtain ⟨l, hl, rfl⟩ := List.mem_map.mp hface
    rw [List.mem_range] at hl
    simp only [computeLocalMatrixStep, innerFaceGlobalDerivatives_length,
      if_pos]
    rw [List.dropLast_concat]
    have hsum : ∀ q ∈ Finset.range vertices.length,
        (M p q
          + (if p = ((s.innerFaceNeighbourVertices).getD l []).getD 0 0
                ∧ q < vertices.length then
              -(permeability *
                ∑ k ∈ Finset.range
                  (HeatTransfer2D.innerFaceGlobalDerivatives s X l).length,
                  mget (HeatTransfer2D.innerFaceGlobalDerivatives s X l) k q *
                    (Point.getCoordinates (areas l)).dropLast.getD k 0)
            else 0)
          + (if p = ((s.innerFaceNeighbourVertices).getD l []).getD 1 0
                ∧ q < vertices.length then
              permeability *
                ∑ k ∈ Finset.range
                  (HeatTransfer2D.innerFaceGlobalDerivatives s X l).length,
                  mget (HeatTransfer2D.innerFaceGlobalDerivatives s X l) k q *
                    (Point.getCoordinates (areas l)).dropLast.getD k 0
            else 0)) =
        (M p q
          + (if p = ((s.innerFaceNeighbourVertices).getD l []).getD 0 0 then
              (-1 : ℚ) else 0) *
            (permeability *
              ∑ k ∈ Finset.range 2,
                mget (HeatTransfer2D.innerFaceGlobalDerivatives s X l) k q *
                  (Point.getCoordinates (areas l)).dropLast.getD k 0)
          + (if p = ((s.innerFaceNeighbourVertices).getD l []).getD 1 0 then
              (1 : ℚ) else 0) *
            (permeability *
              ∑ k ∈ Finset.range 2,
                mget (HeatTransfer2D.innerFaceGlobalDerivatives s X l) k q *
                  (Point.getCoordinates (areas l)).dropLast.getD k 0)) := by
      intro q hq
      have hq' : q < vertices.length := Finset.mem_range.mp hq
      rw [innerFaceGlobalDerivatives_length]
      by_cases hpb : p = ((s.innerFaceNeighbourVertices).getD l []).getD 0 0 <;>
        by_cases hpf : p = ((s.innerFaceNeighbourVertices).getD l []).getD 1 0
      · rw [if_pos ⟨hpb, hq'⟩, if_pos ⟨hpf, hq'⟩, if_pos hpb, if_pos hpf]; ring
      · rw [if_pos ⟨hpb, hq'⟩, if_neg fun h => hpf h.1, if_pos hpb, if_neg hpf]
        ring
      · rw [if_neg fun h => hpb h.1, if_pos ⟨hpf, hq'⟩, if_neg hpb, if_pos hpf]
        ring
      · rw [if_neg fun h => hpb h.1, if_neg fun h => hpf h.1, if_neg hpb,
          if_neg hpf]
        ring
    have e1 : ∑ q ∈ Finset.range s.numberOfVertices,
        ((if p = ((s.innerFaceNeighbourVertices).getD l []).getD 0 0 then
            (-1 : ℚ) else 0) *
          (permeability *
            ∑ k ∈ Finset.range 2,
              mget (HeatTransfer2D.innerFaceGlobalDerivatives s X l) k q *
                (Point.getCoordinates (areas l)).dropLast.getD k 0)) =
        (if p = ((s.innerFaceNeighbourVertices).getD l []).getD 0 0 then
            (-1 : ℚ) else 0) *
          ∑ q ∈ Finset.range s.numberOfVertices,
            (permeability *
              ∑ k ∈ Finset.range 2,
                mget (HeatTransfer2D.innerFaceGlobalDerivatives s X l) k q *
                  (Point.getCoordinates (areas l)).dropLast.getD k 0) :=
      (Finset.mul_sum _ _ _).symm
    have e2 : ∑ q ∈ Finset.range s.numberOfVertices,
        ((if p = ((s.innerFaceNeighbourVertices).getD l []).getD 1 0 then
            (1 : ℚ) else 0) *
          (permeability *
            ∑ k ∈ Finset.range 2,
              mget (HeatTransfer2D.innerFaceGlobalDerivatives s X l) k q *
                (Point.getCoordinates (areas l)).dropLast.getD k 0)) =
        (if p = ((s.innerFaceNeighbourVertices).getD l []).getD 1 0 then
            (1 : ℚ) else 0) *
          ∑ q ∈ Finset.range s.numberOfVertices,
            (permeability *
              ∑ k ∈ Finset.range 2,
                mget (HeatTransfer2D.innerFaceGlobalDerivatives s X l) k q *
                  (Point.getCoordinates (areas l)).dropLast.getD k 0) :=
      (Finset.mul_sum _ _ _).symm
    rw [Finset.sum_congr rfl hsum, Finset.sum_add_distrib,
      Finset.sum_add_distrib, hM, hlen, e1, e2,
      refreshed_flux_sum_zero s X l hl permeability
        fun k => (Point.getCoordinates (areas l)).dropLast.getD k 0,
      mul_zero, mul_zero, add_zero, add_zero]

/-- Witness for C3: the unit triangle with non-singular (identity) Jacobian;
row 0 of its local matrix sums to zero. -/
theorem C3_rows_sum_zero_witness :
    ([⟨0, 1⟩, ⟨1, 1⟩, ⟨2, 1⟩] : List Vertex).length =
      Shape.triangle.numberOfVertices ∧
    det2 (getJacobian
      ((Shape.triangle.innerFaceShapeFunctionDerivatives).getD 0 [])
      [[0, 0], [1, 0], [0, 1]]) ≠ 0 ∧
    ∑ q ∈ Finset.range 3,
      computeLocalMatrix
        (elementWithRefreshedDerivatives Shape.triangle
          [[0, 0], [1, 0], [0, 1]] [⟨0, 1⟩, ⟨1, 1⟩, ⟨2, 1⟩] []
          fun _ => ⟨1, 2, 3⟩) 5 false 0 q = 0 := by
  refine ⟨rfl, ?_, ?_⟩
  · norm_num [getJacobian, Shape.innerFaceShapeFunctionDerivatives,
      Triangle.innerFaceShapeFunctionDerivatives, npMatmul, npTranspose, det2,
      mget, List.range_succ, Finset.sum_range_succ]
  · refine C3_computeLocalMatrix_rows_sum_zero Shape.triangle
      [[0, 0], [1, 0], [0, 1]] [⟨0, 1⟩, ⟨1, 1⟩, ⟨2, 1⟩] [] (fun _ => ⟨1, 2, 3⟩)
      5 false rfl ?_ 0
    intro l hl
    simp only [Shape.numberOfInnerFaces, Triangle.numberOfInnerFaces] at hl
    interval_cases l <;>
      norm_num [getJacobian, Shape.innerFaceShapeFunctionDerivatives,
        Triangle.innerFaceShapeFunctionDerivatives, npMatmul, npTranspose,
        det2, mget, List.range_succ, Finset.sum_range_succ]

/-- C4: on every iteration ≥ 1, addToLinearSystem leaves every matrix entry
unchanged (all matrix writes are guarded by iteration == 0), and the
independent vector is reinitialized from zeros — the result is independent of
the incoming independent vector. -/
theorem C4_addToLinearSystem_frame (pd : ProblemData) (grid : Grid)
    (norm : Point → ℚ) (s : SolverState) (h : 1 ≤ s.iteration) :
    (HeatTransfer2D.addToLinearSystem pd grid norm s).matrix = s.matrix ∧
    ∀ independent0 : ℕ → ℚ,
      HeatTransfer2D.addToLinearSystem pd grid norm
          { s with independent := independent0 } =
        HeatTransfer2D.addToLinearSystem pd grid norm s := by
  have hit : s.iteration ≠ 0 := by omega
  constructor
  · show (if s.iteration = 0 then _ else _) = s.matrix
    rw [if_neg hit]
    exact HeatTransfer2D.transientDiffusive_fst pd grid s.oldTemperature
      s.iteration hit _
  · intro independent0
    rfl

/-- Witness for C4: a one-vertex configuration at iteration 1 keeps its
(zero) matrix through assembly. -/
theorem C4_frame_witness :
    1 ≤ (1 : ℕ) ∧
    (HeatTransfer2D.addToLinearSystem ⟨fun _ => ⟨0, 0, 0, 0⟩, [], [], 1, 0, 0, 0, 5⟩
        ⟨1, []⟩ (fun _ => 0)
        ⟨fun _ _ => 0, fun _ => 0, fun _ => 0, fun _ => 0, 0, 1, false, 0⟩).matrix =
      (⟨fun _ _ => 0, fun _ => 0, fun _ => 0, fun _ => 0, 0, 1, false, 0⟩ :
        SolverState).matrix :=
  ⟨Nat.le_refl 1,
    (C4_addToLinearSystem_frame ⟨fun _ => ⟨0, 0, 0, 0⟩, [], [], 1, 0, 0, 0, 5⟩
      ⟨1, []⟩ (fun _ => 0)
      ⟨fun _ _ => 0, fun _ => 0, fun _ => 0, fun _ => 0, 0, 1, false, 0⟩
      (Nat.le_refl 1)).1⟩

/-- C5: checkConvergence computes difference as the maximum over all vertices
of |numericalTemperature − oldTemperature|, advances oldTemperature to
numericalTemperature, and returns true exactly when the simulated time
exceeds finalTime or (iteration > 0 and difference < tolerance); at
iteration 0 only the time test can fire. -/
theorem C5_checkConvergence_spec (pd : ProblemData) (grid : Grid)
    (s : SolverState) (h : 0 < grid.numberOfVertices) :
    (∃ v, v < grid.numberOfVertices ∧
      (HeatTransfer2D.checkConvergence pd grid s).2.difference =
        |s.numericalTemperature v - s.oldTemperature v|) ∧
    (∀ v, v < grid.numberOfVertices →
      |s.numericalTemperature v - s.oldTemperature v| ≤
        (HeatTransfer2D.checkConvergence pd grid s).2.difference) ∧
    (HeatTransfer2D.checkConvergence pd grid s).2.oldTemperature =
      s.numericalTemperature ∧
    ((HeatTransfer2D.checkConvergence pd grid s).1 = true ↔
      (pd.finalTime < s.currentTime ∨
        (0 < s.iteration ∧
          (HeatTransfer2D.checkConvergence pd grid s).2.difference <
            pd.tolerance))) := by
  have hne : ((List.range grid.numberOfVertices).map fun v =>
      |s.numericalTemperature v - s.oldTemperature v|) ≠ [] := by
    intro hempty
    have := congrArg List.length hempty
    simp at this
    omega
  refine ⟨?_, ?_, rfl, ?_⟩
  · have hmem := HeatTransfer2D.pyMax_mem _ hne
    rw [List.mem_map] at hmem
    obtain ⟨v, hv, hveq⟩ := hmem
    exact ⟨v, List.mem_range.mp hv, hveq.symm⟩
  · intro v hv
    exact HeatTransfer2D.le_pyMax _ _
      (List.mem_map.mpr ⟨v, List.mem_range.mpr hv, rfl⟩)
  · show (if pd.finalTime < s.currentTime then true
      else if 0 < s.iteration then _ else false) = true ↔ _
    by_cases h1 : pd.finalTime < s.currentTime
    · simp [h1]
    · by_cases h2 : 0 < s.iteration
      · rw [if_neg h1, if_pos h2, decide_eq_true_eq]
        constructor
        · intro hd
          exact Or.inr ⟨h2, hd⟩
        · rintro (ht | ⟨-, hd⟩)
          · exact absurd ht h1
          · exact hd
      · rw [if_neg h1, if_neg h2]
        constructor
        · intro hfalse
          cases hfalse
        · rintro (ht | ⟨hi, -⟩)
          · exact absurd ht h1
          · exact absurd hi h2

/-- Witness for C5: a one-vertex state; convergence advances oldTemperature
to the numerical field. -/
theorem C5_checkConvergence_witness :
    0 < (⟨1, []⟩ : Grid).numberOfVertices ∧
    (HeatTransfer2D.checkConvergence ⟨fun _ => ⟨0, 0, 0, 0⟩, [], [], 1, 0, 0, 0, 5⟩
        ⟨1, []⟩
        ⟨fun _ _ => 0, fun _ => 0, fun _ => 3, fun _ => 2, 0, 1, false, 0⟩).2.oldTemperature =
      (⟨fun _ _ => 0, fun _ => 0, fun _ => 3, fun _ => 2, 0, 1, false, 0⟩ :
        SolverState).numericalTemperature :=
  ⟨Nat.one_pos,
    (C5_checkConvergence_spec ⟨fun _ => ⟨0, 0, 0, 0⟩, [], [], 1, 0, 0, 0, 5⟩
      ⟨1, []⟩
      ⟨fun _ _ => 0, fun _ => 0, fun _ => 3, fun _ => 2, 0, 1, false, 0⟩
      Nat.one_pos).2.2.1⟩

/-- C6: the internal-heat-generation pass assigns (overwrites, never adds):
at every index the result is the value volume × InternalHeatGeneration of the
LAST write to that index in region/element/vertex iteration order, and the
incoming value where no write touches it. -/
theorem C6_internalHeatGeneration_last_writer_wins (pd : ProblemData)
    (grid : Grid) (independent : ℕ → ℚ) (i : ℕ) :
    HeatTransfer2D.internalHeatGeneration pd grid independent i =
      (((HeatTransfer2D.heatGenerationWrites pd grid).reverse.find?
          fun p => p.1 == i).elim (independent i) Prod.snd) := by
  rw [HeatTransfer2D.internalHeatGeneration_eq_applyWrites,
    HeatTransfer2D.applyWrites_eq_lastWrite]

/-- C7: re-running the Dirichlet independent-vector pass with the same
boundary values is idempotent — every entry is overwritten with its
prescribed value, so a second application changes nothing. -/
theorem C7_dirichletIndependent_idempotent (pd : ProblemData)
    (independent : ℕ → ℚ) :
    HeatTransfer2D.dirichletIndependent pd
        (HeatTransfer2D.dirichletIndependent pd independent) =
      HeatTransfer2D.dirichletIndependent pd independent := by
  rw [HeatTransfer2D.dirichletIndependent_eq_applyWrites pd
      (HeatTransfer2D.dirichletIndependent pd independent),
    HeatTransfer2D.dirichletIndependent_eq_applyWrites pd independent]
  funext i
  rw [HeatTransfer2D.applyWrites_eq_lastWrite,
    HeatTransfer2D.applyWrites_eq_lastWrite]
  cases hfind : (HeatTransfer2D.dirichletWrites pd).reverse.find?
      fun p => p.1 == i with
  | some v => rfl
  | none => rfl

/-- C8: from the initialized state, the run loop executes its body at most
maxNumberOfIterations times, and it stops only converged or at the iteration
cap; in both cases run returns normally (non-convergence is not an error),
after which finalization takes over unconditionally. -/
theorem C8_run_iteration_bound (pd : ProblemData) (grid : Grid)
    (norm : Point → ℚ) (solve : (ℕ → ℕ → ℚ) → (ℕ → ℚ) → (ℕ → ℚ))
    (currentTime0 : ℚ) :
    (HeatTransfer2D.run pd grid norm solve
        (HeatTransfer2D.settingsState pd currentTime0)).2 ≤
      pd.maxNumberOfIterations ∧
    ((HeatTransfer2D.run pd grid norm solve
        (HeatTransfer2D.settingsState pd currentTime0)).1.converged = true ∨
      pd.maxNumberOfIterations ≤
        (HeatTransfer2D.run pd grid norm solve
          (HeatTransfer2D.settingsState pd currentTime0)).1.iteration) :=
  ⟨HeatTransfer2D.run_count_le pd grid norm solve pd.maxNumberOfIterations _
      (Nat.sub_le _ _),
    HeatTransfer2D.run_exit pd grid norm solve pd.maxNumberOfIterations _
      (Nat.sub_le _ _)⟩

end PyEFVLib
